import Mathlib

/-!
Verification development for the Flutter `DisplayList` core
(`src/display_list/display_list.h`).

The header defines the immutable `DisplayList` command buffer, its
`SaveLayerOptions` bit-flag value type, the accessors `bytes`/`op_count`,
the three `Dispatch` overloads, structural `Equals`, and the owned
`DlStorage` buffer.  Members that are inline in the header are embedded
directly from the source.  Members only declared in the header (the
dispatch loop, `Equals`, `next_unique_id`, and the builder finalization
step) are modelled from the specification, each marked
`Modelled from the spec:` in its doc comment.
-/

namespace Flutter

/-- The closed enumeration of operation kinds, transcribed from the
`FOR_EACH_DISPLAY_LIST_OP` macro expansion into `DisplayListOpType`
(display_list.h lines 57-149; the `IMPELLER_ENABLE_3D` conditional
member is excluded, as in the default build). -/
inductive DisplayListOpType where
  | kSetAntiAlias
  | kSetDither
  | kSetInvertColors
  | kSetStrokeCap
  | kSetStrokeJoin
  | kSetStyle
  | kSetStrokeWidth
  | kSetStrokeMiter
  | kSetColor
  | kSetBlendMode
  | kSetPodPathEffect
  | kClearPathEffect
  | kClearColorFilter
  | kSetPodColorFilter
  | kClearColorSource
  | kSetPodColorSource
  | kSetImageColorSource
  | kSetRuntimeEffectColorSource
  | kClearImageFilter
  | kSetPodImageFilter
  | kSetSharedImageFilter
  | kClearMaskFilter
  | kSetPodMaskFilter
  | kSave
  | kSaveLayer
  | kSaveLayerBounds
  | kSaveLayerBackdrop
  | kSaveLayerBackdropBounds
  | kRestore
  | kTranslate
  | kScale
  | kRotate
  | kSkew
  | kTransform2DAffine
  | kTransformFullPerspective
  | kTransformReset
  | kClipIntersectRect
  | kClipIntersectRRect
  | kClipIntersectPath
  | kClipDifferenceRect
  | kClipDifferenceRRect
  | kClipDifferencePath
  | kDrawPaint
  | kDrawColor
  | kDrawLine
  | kDrawRect
  | kDrawOval
  | kDrawCircle
  | kDrawRRect
  | kDrawDRRect
  | kDrawArc
  | kDrawPath
  | kDrawPoints
  | kDrawLines
  | kDrawPolygon
  | kDrawVertices
  | kDrawImage
  | kDrawImageWithAttr
  | kDrawImageRect
  | kDrawImageNine
  | kDrawImageNineWithAttr
  | kDrawAtlas
  | kDrawAtlasCulled
  | kDrawDisplayList
  | kDrawTextBlob
  | kDrawShadow
  | kDrawShadowTransparentOccluder
  deriving DecidableEq, Repr, Inhabited

/-- Classification of operation kinds that establish or restore drawing
context (attribute-setting, save/restore, transform, clip) as opposed to
pure drawing operations.  The grouping follows the block structure of the
`FOR_EACH_DISPLAY_LIST_OP` macro: every non-`Draw` kind is
context-establishing. -/
def DisplayListOpType.isContextOp : DisplayListOpType → Bool
  | .kDrawPaint => false
  | .kDrawColor => false
  | .kDrawLine => false
  | .kDrawRect => false
  | .kDrawOval => false
  | .kDrawCircle => false
  | .kDrawRRect => false
  | .kDrawDRRect => false
  | .kDrawArc => false
  | .kDrawPath => false
  | .kDrawPoints => false
  | .kDrawLines => false
  | .kDrawPolygon => false
  | .kDrawVertices => false
  | .kDrawImage => false
  | .kDrawImageWithAttr => false
  | .kDrawImageRect => false
  | .kDrawImageNine => false
  | .kDrawImageNineWithAttr => false
  | .kDrawAtlas => false
  | .kDrawAtlasCulled => false
  | .kDrawDisplayList => false
  | .kDrawTextBlob => false
  | .kDrawShadow => false
  | .kDrawShadowTransparentOccluder => false
  | _ => true

/-- Axis-aligned rectangle with scalar coordinates, standing in for
`SkRect`/`SkIRect` (scalars abstracted to `Int`). -/
structure DlRect where
  left : Int
  top : Int
  right : Int
  bottom : Int
  deriving DecidableEq, Repr, Inhabited

/-- Non-empty overlap test between two axis-aligned rectangles, the
semantics of `SkRect::Intersects` (empty intersections do not count). -/
def DlRect.intersects (a b : DlRect) : Bool :=
  decide (max a.left b.left < min a.right b.right) &&
  decide (max a.top b.top < min a.bottom b.bottom)

/-- A decoded operation record: a type tag, the decoded parameter
payload, and the record's axis-aligned bounds (used by culled dispatch).
Modelled from the spec: the per-kind record structs live outside the
provided header; the spec describes each record as a type tag plus an
in-place payload whose parameters compare by value. -/
structure DlOpRecord where
  tag : DisplayListOpType
  payload : List Int
  bounds : DlRect
  deriving DecidableEq, Repr, Inhabited

/-- One storage cell of the encoded stream: either a type tag opening a
record or a scalar value.  Stands in for the raw bytes of `DlStorage`. -/
inductive Cell where
  | tag (t : DisplayListOpType)
  | val (n : Int)
  deriving DecidableEq, Repr

/-- Scalar view of a storage cell; `none` on a tag cell, which a
well-formed payload never contains. -/
def Cell.scalar : Cell → Option Int
  | .tag _ => none
  | .val n => some n

/-- Modelled from the spec: the self-describing variable-length record
encoding (spec 4.1).  A record is appended as its type tag, then the
payload length, then the four bounds coordinates, then the payload
scalars in place. -/
def encodeRecord (op : DlOpRecord) : List Cell :=
  Cell.tag op.tag :: Cell.val op.payload.length ::
    Cell.val op.bounds.left :: Cell.val op.bounds.top ::
    Cell.val op.bounds.right :: Cell.val op.bounds.bottom ::
    op.payload.map Cell.val

/-- Modelled from the spec: the packed sequence of encoded records that a
builder appends into the storage buffer, in recording order. -/
def encodeOps (ops : List DlOpRecord) : List Cell :=
  (ops.map encodeRecord).flatten

/-- Modelled from the spec: the decode loop that walks the storage from
the start to the used-byte boundary, recovering each record's tag, its
payload length, and a typed view of its payload.  The loop is driven
purely by the remaining extent (spec 4.3); a truncated or malformed
stream is rejected (`none`) rather than silently truncated (spec 7c).
`fuel` bounds the recursion by the stream length. -/
def decodeCells : Nat → List Cell → Option (List DlOpRecord)
  | _, [] => some []
  | 0, _ :: _ => none
  | fuel + 1,
    Cell.tag t :: Cell.val len :: Cell.val l :: Cell.val tp ::
      Cell.val r :: Cell.val b :: rest =>
    if 0 ≤ len ∧ len.toNat ≤ rest.length then
      match (rest.take len.toNat).mapM Cell.scalar with
      | some payload =>
        match decodeCells fuel (rest.drop len.toNat) with
        | some ops => some (⟨t, payload, ⟨l, tp, r, b⟩⟩ :: ops)
        | none => none
      | none => none
    else none
  | _ + 1, _ => none

/-- Decode an entire storage stream; the stream length bounds the number
of records, so it serves as fuel. -/
def decodeOps (cells : List Cell) : Option (List DlOpRecord) :=
  decodeCells cells.length cells

/-- The `SaveLayerOptions` value type (display_list.h lines 154-202): a
bit-flag union whose `flags_` word aliases the two single-bit fields
`fRendersWithAttributes` (bit 0) and `fCanDistributeOpacity` (bit 1). -/
structure SaveLayerOptions where
  flags : Nat
  deriving DecidableEq, Repr

/-- Default constructor `SaveLayerOptions()`: `flags_(0)`. -/
def SaveLayerOptions.init : SaveLayerOptions := ⟨0⟩

/-- Copy constructor / `operator=`: reproduces `flags_` exactly. -/
def SaveLayerOptions.copy (o : SaveLayerOptions) : SaveLayerOptions :=
  ⟨o.flags⟩

/-- Accessor `renders_with_attributes()`: reads bit 0 of `flags_`. -/
def SaveLayerOptions.renders_with_attributes (o : SaveLayerOptions) : Bool :=
  o.flags.testBit 0

/-- Accessor `can_distribute_opacity()`: reads bit 1 of `flags_`. -/
def SaveLayerOptions.can_distribute_opacity (o : SaveLayerOptions) : Bool :=
  o.flags.testBit 1

/-- `with_renders_with_attributes()`: copies `this` and sets
`fRendersWithAttributes` to true (bit 0). -/
def SaveLayerOptions.with_renders_with_attributes
    (o : SaveLayerOptions) : SaveLayerOptions :=
  ⟨o.flags ||| 1⟩

/-- `with_can_distribute_opacity()`: copies `this` and sets
`fCanDistributeOpacity` to true (bit 1). -/
def SaveLayerOptions.with_can_distribute_opacity
    (o : SaveLayerOptions) : SaveLayerOptions :=
  ⟨o.flags ||| 2⟩

/-- `without_optimizations()`: builds a default-constructed value and
copies only `fRendersWithAttributes` from `this`. -/
def SaveLayerOptions.without_optimizations
    (o : SaveLayerOptions) : SaveLayerOptions :=
  ⟨if o.flags.testBit 0 then 1 else 0⟩

/-- `operator==`: compares the aliased `flags_` words. -/
def SaveLayerOptions.beq (a b : SaveLayerOptions) : Bool :=
  a.flags == b.flags

/-- `operator!=`: compares the aliased `flags_` words for inequality. -/
def SaveLayerOptions.bne (a b : SaveLayerOptions) : Bool :=
  a.flags != b.flags

/-- The immutable finalized `DisplayList` (display_list.h lines 209-329):
the owned storage plus the const metadata fields set by the private
constructor — local op count, nested byte/op counts, unique id, bounds,
the three classification booleans, and the optional spatial index (the
rtree modelled as its list of indexed bounds). -/
structure DisplayList where
  storage : List Cell
  storageUsed : Nat
  storageAllocated : Nat
  opCountField : Nat
  nestedByteCount : Nat
  nestedOpCount : Nat
  uniqueId : Nat
  bounds : DlRect
  canApplyGroupOpacity : Bool
  isUiThreadSafe : Bool
  modifiesTransparentBlack : Bool
  rtree : Option (List DlRect)
  deriving DecidableEq, Repr

/-- Builder-supplied metadata handed to the private `DisplayList`
constructor at finalization, mirroring its parameter list. -/
structure BuildMeta where
  nestedByteCount : Nat
  nestedOpCount : Nat
  bounds : DlRect
  canApplyGroupOpacity : Bool
  isUiThreadSafe : Bool
  modifiesTransparentBlack : Bool
  rtree : Option (List DlRect)
  deriving DecidableEq, Repr

/-- Modelled from the spec: the builder finalization step
(`DisplayListBuilder::Build`, outside the provided header) transfers a
completed storage buffer — trimmed so that its allocation matches its
used extent — together with the accumulated metadata into the private
`DisplayList` constructor; the unique id is drawn from the process-wide
counter at finalization time. -/
def build (ops : List DlOpRecord) (uid : Nat) (m : BuildMeta) : DisplayList :=
  { storage := encodeOps ops
    storageUsed := (encodeOps ops).length
    storageAllocated := (encodeOps ops).length
    opCountField := ops.length
    nestedByteCount := m.nestedByteCount
    nestedOpCount := m.nestedOpCount
    uniqueId := uid
    bounds := m.bounds
    canApplyGroupOpacity := m.canApplyGroupOpacity
    isUiThreadSafe := m.isUiThreadSafe
    modifiesTransparentBlack := m.modifiesTransparentBlack
    rtree := m.rtree }

/-- Abstract stand-in for `sizeof(DisplayList)`; its exact value is
platform-dependent and never matters to the accounting identities. -/
def sizeofDisplayList : Nat := 120

/-- `DisplayList::bytes(nested)` (display_list.h lines 222-226):
`sizeof(DisplayList) + storage_.allocated() + (nested ? nested_byte_count_ : 0)`. -/
def DisplayList.bytes (dl : DisplayList) (nested : Bool) : Nat :=
  sizeofDisplayList + dl.storageAllocated +
    (if nested then dl.nestedByteCount else 0)

/-- `DisplayList::bytes()` with its default argument `nested = true`. -/
def DisplayList.bytesDefault (dl : DisplayList) : Nat :=
  dl.bytes true

/-- The `FML_DCHECK(storage_.used() == storage_.allocated())` assertion
guarding `bytes()`. -/
def DisplayList.bytesAssertHolds (dl : DisplayList) : Bool :=
  dl.storageUsed == dl.storageAllocated

/-- `DisplayList::op_count(nested)` (display_list.h lines 228-230):
`op_count_ + (nested ? nested_op_count_ : 0)`. -/
def DisplayList.op_count (dl : DisplayList) (nested : Bool) : Nat :=
  dl.opCountField + (if nested then dl.nestedOpCount else 0)

/-- `DisplayList::op_count()` with its default argument `nested = false`. -/
def DisplayList.op_countDefault (dl : DisplayList) : Nat :=
  dl.op_count false

/-- `DisplayList::has_rtree()`. -/
def DisplayList.has_rtree (dl : DisplayList) : Bool :=
  dl.rtree.isSome

/-- The tuple of every observable attribute of a `DisplayList` named by
the header's public accessors. -/
def DisplayList.observables (dl : DisplayList) :
    Nat × Nat × Nat × Nat × Nat × DlRect × Bool × Bool × Bool ×
      Option (List DlRect) :=
  (dl.bytes true, dl.bytes false, dl.op_count true, dl.op_count false,
   dl.uniqueId, dl.bounds, dl.canApplyGroupOpacity, dl.isUiThreadSafe,
   dl.modifiesTransparentBlack, dl.rtree)

/-- One step of the dispatch loop: the `DisplayList` state is threaded
through unchanged (the loop only reads the storage) and the decoded
record is forwarded to the receiver, extending the trace of invoked
callbacks. -/
def dispatchStep (st : DisplayList × List DlOpRecord) (op : DlOpRecord) :
    DisplayList × List DlOpRecord :=
  (st.fst, st.snd ++ [op])

/-- Modelled from the spec: unconditional `Dispatch(DlOpReceiver&)`
(spec 4.3) — decode the storage from start to the used boundary and
invoke the matching receiver callback for every record in encoding
order.  The result pairs the (unchanged) `DisplayList` state with the
trace of receiver invocations; a malformed stream produces an empty
trace (fatal in the real engine, spec 7c). -/
def DisplayList.dispatch (dl : DisplayList) :
    DisplayList × List DlOpRecord :=
  match decodeOps dl.storage with
  | some ops => ops.foldl dispatchStep (dl, [])
  | none => (dl, [])

/-- Cull decision for one record: context-establishing operations are
always forwarded (the conservative context-preservation policy of spec
4.3 / 8.6), drawing operations are forwarded exactly when their bounds
intersect the cull region. -/
def cullKeep (cull : DlRect) (op : DlOpRecord) : Bool :=
  op.tag.isContextOp || op.bounds.intersects cull

/-- Modelled from the spec: culled
`Dispatch(DlOpReceiver&, const SkRect&)` (spec 4.3) — replay in encoding
order, skipping drawing records whose bounds are disjoint from the cull
region while still forwarding every context-establishing record. -/
def DisplayList.dispatchCulled (dl : DisplayList) (cull : DlRect) :
    DisplayList × List DlOpRecord :=
  match decodeOps dl.storage with
  | some ops => (ops.filter (cullKeep cull)).foldl dispatchStep (dl, [])
  | none => (dl, [])

/-- Modelled from the spec: the integer-rect overload
`Dispatch(DlOpReceiver&, const SkIRect&)` promotes the integer cull
rectangle to a scalar rectangle and dispatches identically. -/
def DisplayList.dispatchCulledI (dl : DisplayList) (cull : DlRect) :
    DisplayList × List DlOpRecord :=
  dl.dispatchCulled cull

/-- Modelled from the spec: structural equality `DisplayList::Equals`
(spec 4.5) — equal exactly when the two storages decode to the same
count of records with, at every position, the same kind and the same
parameter values; the unique ids, the metadata, and the storage identity
play no part. -/
def DisplayList.Equals (a b : DisplayList) : Bool :=
  match decodeOps a.storage, decodeOps b.storage with
  | some xs, some ys => xs.length == ys.length && xs == ys
  | _, _ => false

/-- Modelled from the spec: `DisplayList::next_unique_id` draws from a
process-wide monotonically increasing counter; each finalization
receives the current counter value and advances it. -/
def next_unique_id (counter : Nat) : Nat × Nat :=
  (counter, counter + 1)

/-- The counter value after `n` finalizations starting from `c0`. -/
def counterAfter (c0 : Nat) : Nat → Nat
  | 0 => c0
  | n + 1 => (next_unique_id (counterAfter c0 n)).snd

/-- The unique id assigned to the `n`-th finalization (0-based) in a
process whose counter started at `c0`. -/
def idOfFinalization (c0 n : Nat) : Nat :=
  (next_unique_id (counterAfter c0 n)).fst

theorem mapM_scalar_map (l : List Int) :
    (l.map Cell.val).mapM Cell.scalar = some l := by
  induction l with
  | nil => rfl
  | cons x xs ih =>
    rw [List.map_cons, List.mapM_cons, ih]
    rfl

theorem encodeOps_nil : encodeOps [] = [] := rfl

theorem encodeOps_cons (op : DlOpRecord) (ops : List DlOpRecord) :
    encodeOps (op :: ops) = encodeRecord op ++ encodeOps ops := by
  simp [encodeOps]

theorem length_encodeRecord (op : DlOpRecord) :
    (encodeRecord op).length = op.payload.length + 6 := by
  simp [encodeRecord]

theorem encodeRecord_append (op : DlOpRecord) (rest : List Cell) :
    encodeRecord op ++ rest =
      Cell.tag op.tag :: Cell.val op.payload.length ::
        Cell.val op.bounds.left :: Cell.val op.bounds.top ::
        Cell.val op.bounds.right :: Cell.val op.bounds.bottom ::
        (op.payload.map Cell.val ++ rest) := by
  simp [encodeRecord]

theorem decodeCells_encodeOps (ops : List DlOpRecord) :
    ∀ fuel, (encodeOps ops).length ≤ fuel →
      decodeCells fuel (encodeOps ops) = some ops := by
  induction ops with
  | nil => intro fuel _; cases fuel <;> rfl
  | cons op ops ih =>
    intro fuel h
    rw [encodeOps_cons] at h ⊢
    cases fuel with
    | zero =>
      exfalso
      rw [List.length_append, length_encodeRecord] at h
      omega
    | succ f =>
      rw [encodeRecord_append, decodeCells]
      have hlen : ((op.payload.length : Int)).toNat = op.payload.length := by
        simp
      have hmaplen : (op.payload.map Cell.val).length = op.payload.length := by
        simp
      rw [if_pos]
      · rw [hlen, List.take_left' hmaplen, List.drop_left' hmaplen,
          mapM_scalar_map]
        have hrest : (encodeOps ops).length ≤ f := by
          rw [List.length_append, length_encodeRecord] at h
          omega
        rw [ih f hrest]
      · constructor
        · exact Int.ofNat_nonneg _
        · rw [hlen, List.length_append, hmaplen]
          omega

theorem decodeOps_encodeOps (ops : List DlOpRecord) :
    decodeOps (encodeOps ops) = some ops :=
  decodeCells_encodeOps ops _ le_rfl

theorem foldl_dispatchStep (l : List DlOpRecord) (dl : DisplayList)
    (acc : List DlOpRecord) :
    l.foldl dispatchStep (dl, acc) = (dl, acc ++ l) := by
  induction l generalizing acc with
  | nil => simp
  | cons x xs ih =>
    rw [List.foldl_cons]
    show xs.foldl dispatchStep (dl, acc ++ [x]) = _
    rw [ih]
    simp

theorem build_storage (ops : List DlOpRecord) (uid : Nat) (m : BuildMeta) :
    (build ops uid m).storage = encodeOps ops := rfl

theorem dispatch_build (ops : List DlOpRecord) (uid : Nat) (m : BuildMeta) :
    (build ops uid m).dispatch = (build ops uid m, ops) := by
  rw [DisplayList.dispatch, build_storage, decodeOps_encodeOps]
  show List.foldl dispatchStep (build ops uid m, []) ops = _
  rw [foldl_dispatchStep]
  rfl

theorem dispatchCulled_build (ops : List DlOpRecord) (uid : Nat)
    (m : BuildMeta) (cull : DlRect) :
    (build ops uid m).dispatchCulled cull =
      (build ops uid m, ops.filter (cullKeep cull)) := by
  rw [DisplayList.dispatchCulled, build_storage, decodeOps_encodeOps]
  show List.foldl dispatchStep (build ops uid m, [])
    (ops.filter (cullKeep cull)) = _
  rw [foldl_dispatchStep]
  rfl

theorem dispatch_fst (dl : DisplayList) : dl.dispatch.fst = dl := by
  rw [DisplayList.dispatch]
  cases h : decodeOps dl.storage with
  | none => rfl
  | some ops =>
    show (List.foldl dispatchStep (dl, []) ops).fst = dl
    rw [foldl_dispatchStep]

theorem dispatchCulled_fst (dl : DisplayList) (cull : DlRect) :
    (dl.dispatchCulled cull).fst = dl := by
  rw [DisplayList.dispatchCulled]
  cases h : decodeOps dl.storage with
  | none => rfl
  | some ops =>
    show (List.foldl dispatchStep (dl, []) (ops.filter (cullKeep cull))).fst
      = dl
    rw [foldl_dispatchStep]

theorem equals_eq_true_iff (a b : DisplayList) :
    a.Equals b = true ↔
      ∃ xs, decodeOps a.storage = some xs ∧ decodeOps b.storage = some xs := by
  rw [DisplayList.Equals]
  cases ha : decodeOps a.storage with
  | none => simp [ha]
  | some xs =>
    cases hb : decodeOps b.storage with
    | none => simp [hb]
    | some ys =>
      simp only [Bool.and_eq_true, beq_iff_eq]
      constructor
      · rintro ⟨-, rfl⟩
        exact ⟨xs, rfl, rfl⟩
      · rintro ⟨zs, hz1, hz2⟩
        cases hz1
        cases hz2
        exact ⟨rfl, rfl⟩

/-- A concrete recorded operation sequence used to instantiate the
claim theorems: set-color, save, draw-rect, restore. -/
def demoOps : List DlOpRecord :=
  [⟨.kSetColor, [255], ⟨0, 0, 0, 0⟩⟩,
   ⟨.kSave, [], ⟨0, 0, 0, 0⟩⟩,
   ⟨.kDrawRect, [0, 0, 10, 10], ⟨0, 0, 10, 10⟩⟩,
   ⟨.kRestore, [], ⟨0, 0, 0, 0⟩⟩]

/-- Concrete builder metadata used alongside `demoOps`. -/
def demoMeta : BuildMeta :=
  ⟨0, 0, ⟨0, 0, 10, 10⟩, true, true, false, none⟩

/-- Claim C1: for every finalized DisplayList and every receiver,
unconditional Dispatch (the overload taking no cull region) decodes and
visits every encoded operation record exactly once, invoking the
matching receiver callback, in exactly the order the operations were
recorded: the trace of receiver invocations equals the recorded
sequence. -/
theorem C1_dispatch_visits_every_record_in_order
    (ops : List DlOpRecord) (uid : Nat) (m : BuildMeta) :
    ((build ops uid m).dispatch).snd = ops := by
  rw [dispatch_build]

/-- Claim C2: for every finalized DisplayList and every cull region,
culled Dispatch invokes the receiver for every operation whose bounds
intersect the region (no false negatives), and forwards every
context-establishing operation that precedes a non-skipped drawing
operation. -/
theorem C2_culled_dispatch_sound (ops : List DlOpRecord) (uid : Nat)
    (m : BuildMeta) (cull : DlRect) :
    (∀ op ∈ ops, op.bounds.intersects cull = true →
      op ∈ ((build ops uid m).dispatchCulled cull).snd) ∧
    (∀ i j : Nat, i < j → j < ops.length →
      (ops.getD i default).tag.isContextOp = true →
      (ops.getD j default).tag.isContextOp = false →
      (ops.getD j default).bounds.intersects cull = true →
      (ops.getD i default) ∈
        ((build ops uid m).dispatchCulled cull).snd) := by
  constructor
  · intro op hmem hint
    rw [dispatchCulled_build]
    show op ∈ ops.filter (cullKeep cull)
    exact List.mem_filter.mpr ⟨hmem, by simp [cullKeep, hint]⟩
  · intro i j hij hj hictx _ _
    rw [dispatchCulled_build]
    show (ops.getD i default) ∈ ops.filter (cullKeep cull)
    have hi : i < ops.length := lt_trans hij hj
    refine List.mem_filter.mpr ⟨?_, ?_⟩
    · rw [List.getD_eq_getElem _ _ hi]
      exact List.getElem_mem hi
    · show ((ops.getD i default).tag.isContextOp ||
        (ops.getD i default).bounds.intersects cull) = true
      rw [hictx]
      rfl

/-- Claim C2 witness: in the concrete sequence `demoOps` culled against
region (5,5)-(20,20), the intersecting draw-rect is dispatched and the
preceding save (a context operation) is forwarded. -/
theorem C2_culled_dispatch_sound_witness :
    (⟨.kDrawRect, [0, 0, 10, 10], ⟨0, 0, 10, 10⟩⟩ : DlOpRecord) ∈
      ((build demoOps 7 demoMeta).dispatchCulled ⟨5, 5, 20, 20⟩).snd ∧
    (demoOps.getD 1 default) ∈
      ((build demoOps 7 demoMeta).dispatchCulled ⟨5, 5, 20, 20⟩).snd :=
  ⟨(C2_culled_dispatch_sound demoOps 7 demoMeta ⟨5, 5, 20, 20⟩).1
      ⟨.kDrawRect, [0, 0, 10, 10], ⟨0, 0, 10, 10⟩⟩ (by decide) (by decide),
   (C2_culled_dispatch_sound demoOps 7 demoMeta ⟨5, 5, 20, 20⟩).2
      1 2 (by decide) (by decide) (by decide) (by decide) (by decide)⟩

/-- Claim C3: `DisplayList::Equals` is an equivalence relation —
reflexive on every finalized DisplayList, symmetric, transitive — and
two DisplayLists built from the same operation sequence by independent
builder invocations are equal even though their unique ids differ. -/
theorem C3_equals_equivalence :
    (∀ (ops : List DlOpRecord) (uid : Nat) (m : BuildMeta),
      (build ops uid m).Equals (build ops uid m) = true) ∧
    (∀ a b : DisplayList, a.Equals b = b.Equals a) ∧
    (∀ a b c : DisplayList, a.Equals b = true → b.Equals c = true →
      a.Equals c = true) ∧
    (∀ (ops : List DlOpRecord) (uid1 uid2 : Nat) (m1 m2 : BuildMeta),
      uid1 ≠ uid2 →
      (build ops uid1 m1).Equals (build ops uid2 m2) = true) := by
  refine ⟨?_, ?_, ?_, ?_⟩
  · intro ops uid m
    exact (equals_eq_true_iff _ _).mpr
      ⟨ops, by rw [build_storage, decodeOps_encodeOps],
        by rw [build_storage, decodeOps_encodeOps]⟩
  · intro a b
    cases hab : a.Equals b <;> cases hba : b.Equals a <;> try rfl
    · obtain ⟨xs, h3, h4⟩ := (equals_eq_true_iff b a).mp hba
      have h5 := (equals_eq_true_iff a b).mpr ⟨xs, h4, h3⟩
      rw [hab] at h5
      exact h5
    · obtain ⟨xs, h3, h4⟩ := (equals_eq_true_iff a b).mp hab
      have h5 := (equals_eq_true_iff b a).mpr ⟨xs, h4, h3⟩
      rw [hba] at h5
      exact h5.symm
  · intro a b c hab hbc
    obtain ⟨xs, ha, hb⟩ := (equals_eq_true_iff a b).mp hab
    obtain ⟨ys, hb2, hc⟩ := (equals_eq_true_iff b c).mp hbc
    rw [hb] at hb2
    cases hb2
    exact (equals_eq_true_iff a c).mpr ⟨xs, ha, hc⟩
  · intro ops uid1 uid2 m1 m2 _
    exact (equals_eq_true_iff _ _).mpr
      ⟨ops, by rw [build_storage, decodeOps_encodeOps],
        by rw [build_storage, decodeOps_encodeOps]⟩

/-- Claim C3 witness: reflexivity, transitivity and builder-invocation
independence of `Equals` instantiated on DisplayLists built from
`demoOps` under distinct unique ids. -/
theorem C3_equals_equivalence_witness :
    (build demoOps 7 demoMeta).Equals (build demoOps 7 demoMeta) = true ∧
    (build demoOps 7 demoMeta).Equals (build demoOps 8 demoMeta) = true ∧
    (build demoOps 7 demoMeta).Equals (build demoOps 9 demoMeta) = true :=
  ⟨C3_equals_equivalence.1 demoOps 7 demoMeta,
   C3_equals_equivalence.2.2.2 demoOps 7 8 demoMeta demoMeta (by decide),
   C3_equals_equivalence.2.2.1 (build demoOps 7 demoMeta)
      (build demoOps 8 demoMeta) (build demoOps 9 demoMeta)
      (by decide) (by decide)⟩

/-- Claim C4: for every freshly finalized DisplayList,
`bytes(nested=false)` returns `sizeof(DisplayList)` plus the allocated
storage size, and `bytes(nested=true)` adds the nested byte count. -/
theorem C4_bytes_accounting (ops : List DlOpRecord) (uid : Nat)
    (m : BuildMeta) :
    (build ops uid m).bytes false =
      sizeofDisplayList + (build ops uid m).storageAllocated ∧
    (build ops uid m).bytes true =
      (build ops uid m).bytes false + (build ops uid m).nestedByteCount := by
  constructor <;> simp [DisplayList.bytes]

/-- Claim C5: every finalized DisplayList satisfies
`used bytes == allocated bytes`, so the `FML_DCHECK` guarding `bytes()`
never fires. -/
theorem C5_used_eq_allocated (ops : List DlOpRecord) (uid : Nat)
    (m : BuildMeta) :
    (build ops uid m).storageUsed = (build ops uid m).storageAllocated ∧
    (build ops uid m).bytesAssertHolds = true := by
  refine ⟨rfl, ?_⟩
  show ((encodeOps ops).length == (encodeOps ops).length) = true
  exact beq_self_eq_true _

/-- Claim C6: no Dispatch call — any of the three overloads, for any
receiver and any cull region — mutates the DisplayList: the state
threaded through the dispatch loop is returned unchanged, so every
observable attribute is identical before and after. -/
theorem C6_dispatch_preserves_displaylist (dl : DisplayList)
    (cull : DlRect) :
    dl.dispatch.fst = dl ∧
    (dl.dispatchCulled cull).fst = dl ∧
    (dl.dispatchCulledI cull).fst = dl ∧
    (dl.dispatch.fst).observables = dl.observables ∧
    ((dl.dispatchCulled cull).fst).observables = dl.observables ∧
    ((dl.dispatchCulledI cull).fst).observables = dl.observables := by
  refine ⟨dispatch_fst dl, dispatchCulled_fst dl cull,
    dispatchCulled_fst dl cull, ?_, ?_, ?_⟩
  · rw [dispatch_fst]
  · rw [dispatchCulled_fst]
  · show ((dl.dispatchCulled cull).fst).observables = dl.observables
    rw [dispatchCulled_fst]

/-- Claim C7: unique ids drawn from the process-wide counter are
monotonically increasing across finalizations and never reused: distinct
finalizations receive distinct ids. -/
theorem C7_unique_id_monotonic (c0 n k : Nat) :
    (n < k → idOfFinalization c0 n < idOfFinalization c0 k) ∧
    (n ≠ k → idOfFinalization c0 n ≠ idOfFinalization c0 k) := by
  have hid : ∀ j, idOfFinalization c0 j = c0 + j := by
    intro j
    induction j with
    | zero => rfl
    | succ i ih =>
      show counterAfter c0 (i + 1) = c0 + (i + 1)
      rw [counterAfter]
      show counterAfter c0 i + 1 = c0 + (i + 1)
      have h2 : counterAfter c0 i = c0 + i := ih
      omega
  constructor
  · intro h
    rw [hid, hid]
    omega
  · intro h
    rw [hid, hid]
    omega

/-- Claim C7 witness: the ids of the second and fourth finalizations of
a process whose counter starts at 5 are ordered and distinct. -/
theorem C7_unique_id_monotonic_witness :
    idOfFinalization 5 1 < idOfFinalization 5 3 ∧
    idOfFinalization 5 1 ≠ idOfFinalization 5 3 :=
  ⟨(C7_unique_id_monotonic 5 1 3).1 (by decide),
   (C7_unique_id_monotonic 5 1 3).2 (by decide)⟩

/-- Claim C8: `SaveLayerOptions` equality is bitwise on the aliased
`flags_` word, `!=` is its negation, copy and assignment reproduce the
flag bits exactly, and the two boolean flags are independent: each
`with_` setter sets its own bit and leaves the other accessor's value
unchanged. -/
theorem C8_savelayeroptions_bitwise (a b : SaveLayerOptions) :
    a.beq b = (a.flags == b.flags) ∧
    a.bne b = !(a.beq b) ∧
    a.copy = a ∧
    (a.with_renders_with_attributes).renders_with_attributes = true ∧
    (a.with_renders_with_attributes).can_distribute_opacity =
      a.can_distribute_opacity ∧
    (a.with_can_distribute_opacity).can_distribute_opacity = true ∧
    (a.with_can_distribute_opacity).renders_with_attributes =
      a.renders_with_attributes := by
  refine ⟨rfl, rfl, rfl, ?_, ?_, ?_, ?_⟩ <;>
    · simp only [SaveLayerOptions.with_renders_with_attributes,
        SaveLayerOptions.with_can_distribute_opacity,
        SaveLayerOptions.renders_with_attributes,
        SaveLayerOptions.can_distribute_opacity, Nat.testBit_lor]
      simp [show Nat.testBit 1 0 = true by decide,
        show Nat.testBit 1 1 = false by decide,
        show Nat.testBit 2 1 = true by decide,
        show Nat.testBit 2 0 = false by decide]

/-- Claim C9: `without_optimizations()` preserves
`renders_with_attributes` and clears `can_distribute_opacity`. -/
theorem C9_without_optimizations (o : SaveLayerOptions) :
    (o.without_optimizations).renders_with_attributes =
      o.renders_with_attributes ∧
    (o.without_optimizations).can_distribute_opacity = false := by
  constructor <;>
    · simp only [SaveLayerOptions.without_optimizations,
        SaveLayerOptions.renders_with_attributes,
        SaveLayerOptions.can_distribute_opacity]
      by_cases h : o.flags.testBit 0 <;> simp [h] <;> decide

/-- Claim C10: the two accessors' defaults are asymmetric — `op_count()`
defaults to the local count only (`nested = false`) while `bytes()`
defaults to including the nested byte count (`nested = true`) — and
explicitly `op_count(true) = op_count(false) + nested op count` and
`bytes(true) = bytes(false) + nested byte count`. -/
theorem C10_accessor_defaults (dl : DisplayList) :
    dl.op_countDefault = dl.op_count false ∧
    dl.op_countDefault = dl.opCountField ∧
    dl.bytesDefault = dl.bytes true ∧
    dl.op_count true = dl.op_count false + dl.nestedOpCount ∧
    dl.bytes true = dl.bytes false + dl.nestedByteCount := by
  refine ⟨rfl, ?_, rfl, ?_, ?_⟩ <;>
    simp [DisplayList.op_count, DisplayList.op_countDefault,
      DisplayList.bytes]

end Flutter
